import Mathlib

/-!
Verification development for the conversational session manager of the
StressEase backend (module stressease/api/chat.py).

The embedding models:
  - the per-record history reconstruction loop of load_session
    (conversion of raw Firestore records to role-tagged messages),
  - the per-user in-memory session cache (a Python dict in insertion order),
  - cleanup_old_sessions (capacity eviction),
  - load_session (session resolution: create / resume),
  - send_chat_message (validation, turn numbering, cache touch,
    background persistence jobs).

External collaborators (uuid, clock, chain construction, Firestore reads,
the language model call) are passed in as an explicit context ExtCtx; the
two calls that can raise on the synchronous path are modelled as Except.
Message construction is also fallible: the langchain message classes
validate their content field, so constructing a message from a record
whose content resolves to nothing raises, and that exception propagates
to the catch-all handler of load_session; the record conversion and the
history reconstruction therefore return Except as well.
-/

namespace StressEase

/-- Role-tagged message as built by the history loop: models a langchain
HumanMessage or AIMessage value. The message classes validate the content
field on construction, so a constructed message always carries a string;
passing a missing content to the constructor is the raising case modelled
in recordToMsg. -/
inductive LCMessage where
  | human (content : String)
  | ai (content : String)
deriving DecidableEq

/-- Raw record as returned by chat_memory_service.load_conversation_memory:
either an already-typed message object, a Python dict with optional
role / type / content / text string fields, or a value of any other shape
(which every isinstance check rejects). -/
inductive RawRecord where
  | humanMsg (content : String)
  | aiMsg (content : String)
  | dict (role typ content text : Option String)
  | other
deriving DecidableEq

/-- Python falsy-or on optional strings: `a.get(k1) or a.get(k2)` takes the
second operand when the first is None or the empty string. -/
def pyOr (a b : Option String) : Option String :=
  match a with
  | some s => if s = "" then b else some s
  | none => b

/-- Body of the history reconstruction loop of load_session for one raw
record: typed messages are kept as they are; dicts are converted by role
(with the falsy-or fallbacks role/type and content/text); role user gives a
human message, roles assistant and ai give an ai message; any other role,
and any other record shape, yields nothing. When a supported role matches
but the content resolves to nothing, the message constructor receives that
nothing and its content validation raises - the error case here. -/
def recordToMsg : RawRecord → Except Unit (Option LCMessage)
  | .humanMsg c => .ok (some (.human c))
  | .aiMsg c => .ok (some (.ai c))
  | .dict role typ content text =>
      let r := pyOr role typ
      let c := pyOr content text
      if r = some "user" then
        match c with
        | some s => .ok (some (.human s))
        | none => .error ()
      else if r = some "assistant" ∨ r = some "ai" then
        match c with
        | some s => .ok (some (.ai s))
        | none => .error ()
      else .ok none
  | .other => .ok none

/-- History reconstruction loop of load_session over a whole raw record
list, in order: a record converting to a message is appended, a record
converting to nothing is skipped, and a raising conversion aborts the
whole loop with the exception. -/
def buildHistory : List RawRecord → Except Unit (List LCMessage)
  | [] => .ok []
  | r :: rest =>
      match recordToMsg r with
      | .error _ => .error ()
      | .ok none => buildHistory rest
      | .ok (some m) =>
          match buildHistory rest with
          | .error _ => .error ()
          | .ok h => .ok (m :: h)

/-- Decidable equality on Except values, so that the concrete evaluations
of the fallible history reconstruction can be settled by decide. -/
instance (ε α : Type) [DecidableEq ε] [DecidableEq α] :
    DecidableEq (Except ε α) := fun a b =>
  match a, b with
  | .ok x, .ok y =>
      if h : x = y then isTrue (by rw [h]) else isFalse (by simp [h])
  | .error x, .error y =>
      if h : x = y then isTrue (by rw [h]) else isFalse (by simp [h])
  | .ok _, .error _ => isFalse (by simp)
  | .error _, .ok _ => isFalse (by simp)

/-- One entry of the in-memory session cache:
\x7b chain, last_activity, message_count \x7d. The chain handle is opaque and
modelled by a number; the timestamp is a number. -/
structure SessionRec where
  chain : Nat
  last_activity : Nat
  message_count : Nat
deriving DecidableEq

/-- The per-user slice of active_chat_sessions: a Python dict from session
id to record, modelled as an association list in insertion order. An absent
user key is modelled by the empty list. -/
abbrev UserCache := List (String × SessionRec)

/-- Background persistence jobs spawned by the request path (each models
one threading.Thread target). -/
inductive Job where
  | endSession (sid : String)
  | createMeta (sid : String)
  | saveTurn (sid : String) (userText aiText : String) (turn : Nat)
  | updateActivity (sid : String)
deriving DecidableEq

/-- Dict lookup by key. -/
def lookupKey (l : UserCache) (k : String) : Option SessionRec :=
  (l.find? (fun p => p.1 = k)).map (fun p => p.2)

/-- Python del on a dict key: removes the (unique) binding with that key;
on the association list this is removal of the first occurrence. -/
def eraseKey : UserCache → String → UserCache
  | [], _ => []
  | p :: rest, k => if p.1 = k then rest else p :: eraseKey rest k

/-- Python dict assignment d[k] = v: overwrites in place when the key is
present, appends at the end when it is new. -/
def dictSet (l : UserCache) (k : String) (v : SessionRec) : UserCache :=
  if l.any (fun p => p.1 = k) then
    l.map (fun p => if p.1 = k then (k, v) else p)
  else l ++ [(k, v)]

/-- One comparison step of Python min with key last_activity: the running
candidate is replaced only when the next item is strictly smaller. -/
def minStep (b y : String × SessionRec) : String × SessionRec :=
  if y.2.last_activity < b.2.last_activity then y else b

/-- Python min over dict items with key last_activity: returns the first
item attaining the minimum in iteration (= insertion) order, since min
replaces its candidate only on a strictly smaller key. -/
def pyMin (l : UserCache) : Option (String × SessionRec) :=
  match l with
  | [] => none
  | x :: xs => some (xs.foldl minStep x)

/-- cleanup_old_sessions from chat.py, acting on one user slice of the
cache: when the user holds at least max_sessions entries, the oldest entry
by last_activity is deleted and an end-session job is spawned for it;
otherwise nothing happens. Returns the new slice and the spawned jobs. -/
def cleanup_old_sessions (cache : UserCache) (max_sessions : Nat := 2) :
    UserCache × List Job :=
  if max_sessions ≤ cache.length then
    match pyMin cache with
    | some victim => (eraseKey cache victim.1, [Job.endSession victim.1])
    | none => (cache, [])
  else (cache, [])

/-- External collaborators of one request, passed in explicitly:
freshId is the uuid4 value drawn for a new session, now the utcnow value
read inside load_session, now2 the utcnow value read at the
cache-touch after the reply, chainResult the outcome of
create_chain_for_user (error models a raised exception), rawHistory the
outcome of load_conversation_memory, and llmReply the text produced by
generate_chat_response. -/
structure ExtCtx where
  freshId : String
  now : Nat
  now2 : Nat
  chainResult : Except Unit Nat
  rawHistory : Except Unit (List RawRecord)
  llmReply : String

/-- The triple returned by load_session. -/
structure LoadResult where
  sessionId : Option String
  chain : Option Nat
  history : List LCMessage
deriving DecidableEq

/-- Python truthiness test `if not session_id`: None and the empty string
are both falsy. -/
def isFalsyId : Option String → Bool
  | none => true
  | some s => s = ""

/-- load_session from chat.py, acting on the slice of
active_chat_sessions for the requesting user. With no (or falsy) session
id: draw a fresh id, run capacity cleanup, spawn the create-metadata job,
build a chain and insert the new record with message count 0 and empty
history; a chain failure is caught after the cleanup and metadata spawn
already happened, leaving the cache without the new record. With a session
id: always reload raw history fresh from the store and rebuild it
record by record (a message-validation raise in that loop is caught like
any other exception); reuse the cached chain when the id is cached,
otherwise build one and insert it with message count half the history
length. Any caught exception yields the triple (None, None, []). -/
def load_session (ctx : ExtCtx) (sessionId : Option String)
    (cache : UserCache) : LoadResult × UserCache × List Job :=
  if isFalsyId sessionId then
    let sid := ctx.freshId
    let cleaned := cleanup_old_sessions cache 2
    let jobs := cleaned.2 ++ [Job.createMeta sid]
    match ctx.chainResult with
    | .error _ => (⟨none, none, []⟩, cleaned.1, jobs)
    | .ok chain =>
        (⟨some sid, some chain, []⟩,
         dictSet cleaned.1 sid ⟨chain, ctx.now, 0⟩, jobs)
  else
    match sessionId with
    | none => (⟨none, none, []⟩, cache, [])
    | some sid =>
      match ctx.rawHistory with
      | .error _ => (⟨none, none, []⟩, cache, [])
      | .ok raw =>
        match buildHistory raw with
        | .error _ => (⟨none, none, []⟩, cache, [])
        | .ok history =>
          match lookupKey cache sid with
          | some rec => (⟨some sid, some rec.chain, history⟩, cache, [])
          | none =>
            match ctx.chainResult with
            | .error _ => (⟨none, none, []⟩, cache, [])
            | .ok chain =>
                (⟨some sid, some chain, history⟩,
                 dictSet cache sid ⟨chain, ctx.now, history.length / 2⟩, [])

/-- Python str.strip with no argument: removes leading and trailing
whitespace characters. Written structurally over the character list so
that it evaluates by kernel reduction. -/
def pyStrip (s : String) : String :=
  ⟨((s.data.dropWhile Char.isWhitespace).reverse.dropWhile
      Char.isWhitespace).reverse⟩

/-- Parsed JSON body of POST /message: the optional message and session_id
fields. A missing message field is none (the code then substitutes the
empty string). -/
structure ChatRequest where
  message : Option String
  session_id : Option String

/-- Outcome of send_chat_message, abstracting the HTTP response:
invalidRequest is the 400 INVALID_REQUEST reply, emptyMessage and
messageTooLong the two 400 VALIDATION_ERROR replies, sessionError the 500
reply sent when no chain came back, and ok carries the session id, the
turn number passed to the persisted-turn write, and the message count
reported in the response metadata. -/
inductive SendOutcome where
  | invalidRequest
  | emptyMessage
  | messageTooLong
  | sessionError (sid : Option String)
  | ok (sid : String) (turnNumber : Nat) (messageCount : Nat)
deriving DecidableEq

/-- send_chat_message from chat.py: validate the body (strip the message,
reject empty and over-long texts before any session work), resolve the
session, fail with 500 when no chain came back, otherwise compute the turn
number as half the loaded history length, spawn the save-turn and
update-activity jobs, touch the cached record (increment message count,
refresh last_activity) when present, and answer with the cached message
count. The request argument is none when the body is missing or falsy. -/
def send_chat_message (ctx : ExtCtx) (request : Option ChatRequest)
    (cache : UserCache) : SendOutcome × UserCache × List Job :=
  match request with
  | none => (.invalidRequest, cache, [])
  | some req =>
    let user_message := pyStrip (req.message.getD "")
    if user_message = "" then (.emptyMessage, cache, [])
    else if 1000 < user_message.length then (.messageTooLong, cache, [])
    else
      let loaded := load_session ctx req.session_id cache
      match loaded.1.sessionId, loaded.1.chain with
      | some sid, some _ =>
          let turn_number := loaded.1.history.length / 2
          let jobs := loaded.2.2 ++
            [Job.saveTurn sid user_message ctx.llmReply turn_number,
             Job.updateActivity sid]
          let cache2 :=
            match lookupKey loaded.2.1 sid with
            | some rec =>
                dictSet loaded.2.1 sid
                  { rec with
                    message_count := rec.message_count + 1,
                    last_activity := ctx.now2 }
            | none => loaded.2.1
          let mc := ((lookupKey cache2 sid).map
            (fun r => r.message_count)).getD 0
          (.ok sid turn_number mc, cache2, jobs)
      | _, _ => (.sessionError loaded.1.sessionId, loaded.2.1, loaded.2.2)

/-- Modelled from the spec: chat_memory_service.load_conversation_memory is
not under src/. Per the spec, HistoryLoader fetches up to max_messages most
recent raw turn records for the session from TurnStore and yields them
oldest to newest; on a store holding the records oldest to newest this is
the final max_messages records in order. -/
def load_conversation_memory (store : List RawRecord)
    (max_messages : Nat) : List RawRecord :=
  store.drop (store.length - max_messages)

/-! Helper lemmas. -/

lemma buildHistory_cons_skip (r : RawRecord) (l : List RawRecord)
    (hr : recordToMsg r = Except.ok none) :
    buildHistory (r :: l) = buildHistory l := by
  simp [buildHistory, hr]

lemma buildHistory_cons_emit (r : RawRecord) (m : LCMessage)
    (l : List RawRecord) (h : List LCMessage)
    (hr : recordToMsg r = Except.ok (some m))
    (hl : buildHistory l = Except.ok h) :
    buildHistory (r :: l) = Except.ok (m :: h) := by
  simp [buildHistory, hr, hl]

lemma buildHistory_cons_error (r : RawRecord) (l : List RawRecord)
    (hr : recordToMsg r = Except.error ()) :
    buildHistory (r :: l) = Except.error () := by
  simp [buildHistory, hr]

lemma buildHistory_cons_tail_error (r : RawRecord) (m : LCMessage)
    (l : List RawRecord) (hr : recordToMsg r = Except.ok (some m))
    (hl : buildHistory l = Except.error ()) :
    buildHistory (r :: l) = Except.error () := by
  simp [buildHistory, hr, hl]

lemma buildHistory_append_ok (l1 l2 : List RawRecord) (h1 : List LCMessage)
    (hok : buildHistory l1 = Except.ok h1) :
    buildHistory (l1 ++ l2)
      = (buildHistory l2).map (fun h2 => h1 ++ h2) := by
  induction l1 generalizing h1 with
  | nil =>
      simp only [buildHistory, Except.ok.injEq] at hok
      subst hok
      cases hbl2 : buildHistory l2 <;> simp [Except.map, hbl2]
  | cons r rest ih =>
      cases hr : recordToMsg r with
      | error e =>
          simp [buildHistory, hr] at hok
      | ok om =>
          cases om with
          | none =>
              rw [buildHistory_cons_skip r rest hr] at hok
              rw [List.cons_append, buildHistory_cons_skip r (rest ++ l2) hr]
              exact ih h1 hok
          | some m =>
              simp only [buildHistory, hr] at hok
              cases hrest : buildHistory rest with
              | error e => simp [hrest] at hok
              | ok h =>
                  simp only [hrest, Except.ok.injEq] at hok
                  subst hok
                  cases hbl2 : buildHistory l2 with
                  | error e =>
                      cases e
                      rw [List.cons_append,
                        buildHistory_cons_tail_error r m (rest ++ l2) hr
                          (by rw [ih h hrest, hbl2]; rfl)]
                      rfl
                  | ok h2 =>
                      rw [List.cons_append,
                        buildHistory_cons_emit r m (rest ++ l2) (h ++ h2) hr
                          (by rw [ih h hrest, hbl2]; rfl)]
                      rfl

lemma buildHistory_ok_length_le (l : List RawRecord) (h : List LCMessage)
    (hok : buildHistory l = Except.ok h) : h.length ≤ l.length := by
  induction l generalizing h with
  | nil =>
      simp only [buildHistory, Except.ok.injEq] at hok
      subst hok
      simp
  | cons r rest ih =>
      cases hr : recordToMsg r with
      | error e => simp [buildHistory, hr] at hok
      | ok om =>
          cases om with
          | none =>
              rw [buildHistory_cons_skip r rest hr] at hok
              exact le_trans (ih h hok) (by simp)
          | some m =>
              simp only [buildHistory, hr] at hok
              cases hrest : buildHistory rest with
              | error e => simp [hrest] at hok
              | ok hh =>
                  simp only [hrest, Except.ok.injEq] at hok
                  subst hok
                  simpa using ih hh hrest

lemma foldl_minStep_spec (xs : UserCache) (b : String × SessionRec) :
    (xs.foldl minStep b = b ∧
      ∀ x ∈ xs, b.2.last_activity ≤ x.2.last_activity) ∨
    (∃ l1 l2, xs = l1 ++ (xs.foldl minStep b) :: l2 ∧
      (xs.foldl minStep b).2.last_activity < b.2.last_activity ∧
      (∀ x ∈ l1,
        (xs.foldl minStep b).2.last_activity < x.2.last_activity) ∧
      (∀ x ∈ l2,
        (xs.foldl minStep b).2.last_activity ≤ x.2.last_activity)) := by
  induction xs generalizing b with
  | nil => exact Or.inl ⟨rfl, by simp⟩
  | cons y ys ih =>
    simp only [List.foldl_cons]
    by_cases hy : y.2.last_activity < b.2.last_activity
    · have hstep : minStep b y = y := by simp [minStep, hy]
      rw [hstep]
      rcases ih y with ⟨heq, hall⟩ | ⟨l1, l2, hsplit, hlt, hl1, hl2⟩
      · refine Or.inr ⟨[], ys, by rw [heq]; rfl, ?_, by simp, ?_⟩
        · rw [heq]; exact hy
        · rw [heq]; exact hall
      · refine Or.inr ⟨y :: l1, l2, by rw [List.cons_append, ← hsplit],
          lt_trans hlt hy, ?_, hl2⟩
        intro x hx
        rcases List.mem_cons.mp hx with hx | hx
        · rw [hx]; exact hlt
        · exact hl1 x hx
    · have hstep : minStep b y = b := by simp [minStep, hy]
      rw [hstep]
      have hby : b.2.last_activity ≤ y.2.last_activity := le_of_not_lt hy
      rcases ih b with ⟨heq, hall⟩ | ⟨l1, l2, hsplit, hlt, hl1, hl2⟩
      · refine Or.inl ⟨heq, ?_⟩
        intro x hx
        rcases List.mem_cons.mp hx with hx | hx
        · rw [hx]; exact hby
        · exact hall x hx
      · refine Or.inr ⟨y :: l1, l2, by rw [List.cons_append, ← hsplit],
          hlt, ?_, hl2⟩
        intro x hx
        rcases List.mem_cons.mp hx with hx | hx
        · rw [hx]; exact lt_of_lt_of_le hlt hby
        · exact hl1 x hx

lemma pyMin_spec (l : UserCache) (v : String × SessionRec)
    (h : pyMin l = some v) :
    ∃ l1 l2, l = l1 ++ v :: l2 ∧
      (∀ x ∈ l1, v.2.last_activity < x.2.last_activity) ∧
      (∀ x ∈ l2, v.2.last_activity ≤ x.2.last_activity) := by
  match l with
  | [] => cases h
  | x :: xs =>
    simp only [pyMin, Option.some.injEq] at h
    rcases foldl_minStep_spec xs x with ⟨heq, hall⟩ | ⟨l1, l2, hs, hlt, h1, h2⟩
    · refine ⟨[], xs, ?_, by simp, ?_⟩
      · rw [← h, heq]; rfl
      · rw [← h, heq]; exact hall
    · refine ⟨x :: l1, l2, ?_, ?_, ?_⟩
      · rw [List.cons_append, ← h, ← hs]
      · rw [← h]
        intro z hz
        rcases List.mem_cons.mp hz with hz | hz
        · rw [hz]; exact hlt
        · exact h1 z hz
      · rw [← h]; exact h2

lemma eraseKey_append_of_not_mem (l1 l2 : UserCache)
    (v : String × SessionRec) (h : ∀ x ∈ l1, x.1 ≠ v.1) :
    eraseKey (l1 ++ v :: l2) v.1 = l1 ++ l2 := by
  induction l1 with
  | nil => simp [eraseKey]
  | cons p rest ih =>
      have hp : p.1 ≠ v.1 := h p (by simp)
      simp only [List.cons_append, eraseKey, if_neg hp]
      rw [show rest.append (v :: l2) = rest ++ v :: l2 from rfl,
        ih (fun x hx => h x (by simp [hx]))]

lemma eraseKey_sublist (l : UserCache) (k : String) :
    (eraseKey l k).Sublist l := by
  induction l with
  | nil => simp [eraseKey]
  | cons p rest ih =>
      simp only [eraseKey]
      split
      · exact List.sublist_cons_self p rest
      · exact List.Sublist.cons₂ p ih

lemma cleanup_sublist (cache : UserCache) (n : Nat) :
    ((cleanup_old_sessions cache n).1).Sublist cache := by
  unfold cleanup_old_sessions
  split
  · split
    · exact eraseKey_sublist cache _
    · exact List.Sublist.refl cache
  · exact List.Sublist.refl cache

lemma cleanup_eq_of_pyMin (cache : UserCache) (h2 : 2 ≤ cache.length)
    (v : String × SessionRec) (hpm : pyMin cache = some v) :
    cleanup_old_sessions cache 2
      = (eraseKey cache v.1, [Job.endSession v.1]) := by
  unfold cleanup_old_sessions
  rw [if_pos h2, hpm]

lemma load_session_falsy_history (ctx : ExtCtx) (s : Option String)
    (cache : UserCache) (h : isFalsyId s = true) :
    (load_session ctx s cache).1.history = [] := by
  unfold load_session
  rw [if_pos h]
  cases hc : ctx.chainResult <;> simp [hc]

/-! Claim theorems. -/

/-- Claim C1. Capacity invariant: refuted by the code, and the code
contradicts its own module documentation (Max 2 active sessions per user).
Resuming an uncached session id inserts into the cache without running
cleanup_old_sessions, so a user already holding two cached sessions ends
the request with three resident sessions. Evaluated here on a complete
message request: user cache holds sessions a and b, the request resumes
the uncached id c, and after the operation completes the user has three
cached sessions. -/
theorem capacity_violated_on_uncached_resume :
    (send_chat_message ⟨"f", 10, 11, Except.ok 7, Except.ok [], "r"⟩
      (some ⟨some "hi", some "c"⟩)
      [("a", ⟨1, 0, 0⟩), ("b", ⟨2, 3, 0⟩)]).2.1.length = 3 := by
  decide

/-- Claim C2, counterexample. With two cached sessions tied on
last_activity, the code evicts the first item in dict insertion order,
here the session with id b, although a is the lexicographically smaller
id: min over dict items keyed on last_activity alone keeps the first
minimal item and never consults the session id. -/
theorem eviction_lex_tie_refuted :
    cleanup_old_sessions [("b", ⟨0, 5, 0⟩), ("a", ⟨1, 5, 0⟩)] 2
      = ([("a", ⟨1, 5, 0⟩)], [Job.endSession "b"])
    ∧ "a".data < "b".data := by
  decide

/-- Claim C2, amended. Whenever eviction runs for a user holding at least
max_sessions (2) cached sessions with pairwise distinct ids, exactly one
session is evicted, namely one with the minimum last-activity timestamp;
a tie on the timestamp is broken deterministically by insertion order
(the earliest-inserted minimal entry is evicted), not by lexicographic
order of the session ids: every entry inserted before the victim has a
strictly greater last-activity timestamp, and every entry inserted after
it has a greater or equal one. -/
theorem eviction_picks_first_min_last_activity (cache : UserCache)
    (h2 : 2 ≤ cache.length)
    (hnd : cache.Pairwise (fun a b => a.1 ≠ b.1)) :
    ∃ v l1 l2, cache = l1 ++ v :: l2 ∧
      cleanup_old_sessions cache 2 = (l1 ++ l2, [Job.endSession v.1]) ∧
      (∀ x ∈ l1, v.2.last_activity < x.2.last_activity) ∧
      (∀ x ∈ l2, v.2.last_activity ≤ x.2.last_activity) := by
  obtain ⟨x, xs, rfl⟩ : ∃ x xs, cache = x :: xs := by
    cases cache with
    | nil => simp at h2
    | cons x xs => exact ⟨x, xs, rfl⟩
  have hpm : pyMin (x :: xs) = some (xs.foldl minStep x) := rfl
  obtain ⟨l1, l2, hsplit, hl1, hl2⟩ := pyMin_spec _ _ hpm
  have hne : ∀ z ∈ l1, z.1 ≠ (xs.foldl minStep x).1 := by
    rw [hsplit] at hnd
    intro z hz
    exact (List.pairwise_append.mp hnd).2.2 z hz _ (by simp)
  refine ⟨xs.foldl minStep x, l1, l2, hsplit, ?_, hl1, hl2⟩
  rw [cleanup_eq_of_pyMin _ h2 _ hpm, hsplit,
    eraseKey_append_of_not_mem l1 l2 _ hne]

/-- Claim C2, amended, witness at the tied concrete cache from the
counterexample: the amended rule names b, the earliest-inserted minimal
entry, as the victim. -/
theorem eviction_first_min_witness :
    ∃ v l1 l2,
      ([("b", ⟨0, 5, 0⟩), ("a", ⟨1, 5, 0⟩)] : UserCache) = l1 ++ v :: l2 ∧
      cleanup_old_sessions [("b", ⟨0, 5, 0⟩), ("a", ⟨1, 5, 0⟩)] 2
        = (l1 ++ l2, [Job.endSession v.1]) ∧
      (∀ x ∈ l1, v.2.last_activity < x.2.last_activity) ∧
      (∀ x ∈ l2, v.2.last_activity ≤ x.2.last_activity) :=
  eviction_picks_first_min_last_activity
    [("b", ⟨0, 5, 0⟩), ("a", ⟨1, 5, 0⟩)] (by decide)
    (by simp [List.pairwise_cons])

/-- Claim C5, counterexample. The load is not tolerant of every malformed
record: a dict record with the supported role user whose content and text
fields are both missing reaches the message constructor with no content,
the constructors validation raises, and the whole load aborts - the
well-formed messages of the remaining records (which on their own load
fine) are not returned, and load_session catches the exception and
returns the failure triple with an empty history and no chain. -/
theorem history_abort_on_missing_content :
    buildHistory [RawRecord.humanMsg "u1",
      RawRecord.dict (some "user") none none none,
      RawRecord.aiMsg "a1"] = Except.error ()
    ∧ buildHistory [RawRecord.humanMsg "u1", RawRecord.aiMsg "a1"]
        = Except.ok [LCMessage.human "u1", LCMessage.ai "a1"]
    ∧ load_session ⟨"f", 1, 2, Except.ok 9,
        Except.ok [RawRecord.humanMsg "u1",
          RawRecord.dict (some "user") none none none,
          RawRecord.aiMsg "a1"], "r"⟩ (some "s") []
        = (⟨none, none, []⟩, [], []) := by
  decide

/-- Claim C5, amended. Partial tolerance of history loading is limited to
role markers: the reconstruction emits a role-tagged message for each
well-formed half (a supported role marker user, assistant or ai whose
content resolves to a string), drops every record with an unknown or
unsupported role marker without aborting the load - the well-formed
messages from the remaining records are still returned - but a record
bearing a supported role marker whose content and text fields resolve to
nothing raises a message-validation error that aborts the whole load
(caught by the session loader, which returns the failure triple). -/
theorem history_partial_tolerance_amended (l1 l2 : List RawRecord)
    (h1 h2 : List LCMessage)
    (hok1 : buildHistory l1 = Except.ok h1)
    (hok2 : buildHistory l2 = Except.ok h2)
    (role typ content text : Option String) :
    (pyOr role typ ≠ some "user" → pyOr role typ ≠ some "assistant" →
      pyOr role typ ≠ some "ai" →
      buildHistory (l1 ++ RawRecord.dict role typ content text :: l2)
        = Except.ok (h1 ++ h2))
    ∧ (∀ c, pyOr content text = some c → pyOr role typ = some "user" →
      buildHistory (l1 ++ RawRecord.dict role typ content text :: l2)
        = Except.ok (h1 ++ LCMessage.human c :: h2))
    ∧ (pyOr content text = none → pyOr role typ = some "user" →
      buildHistory (l1 ++ RawRecord.dict role typ content text :: l2)
        = Except.error ()) := by
  refine ⟨?_, ?_, ?_⟩
  · intro hu ha hai
    have hr : recordToMsg (.dict role typ content text)
        = Except.ok none := by
      simp [recordToMsg, hu, ha, hai]
    rw [buildHistory_append_ok l1 _ h1 hok1,
      buildHistory_cons_skip _ _ hr, hok2]
    rfl
  · intro c hc hu
    have hr : recordToMsg (.dict role typ content text)
        = Except.ok (some (.human c)) := by
      simp [recordToMsg, hu, hc]
    rw [buildHistory_append_ok l1 _ h1 hok1,
      buildHistory_cons_emit _ _ _ _ hr hok2]
    rfl
  · intro hc hu
    have hr : recordToMsg (.dict role typ content text)
        = Except.error () := by
      simp [recordToMsg, hu, hc]
    rw [buildHistory_append_ok l1 _ h1 hok1,
      buildHistory_cons_error _ _ hr]
    rfl

/-- Claim C5, amended, witness on the concrete scenario of the spec: two
well-formed halves and a turn with a missing assistant half around a
middle record; an unknown role marker in the middle is dropped and the
others are returned, a user record with content is emitted in place, and
a user record with no content aborts the load. -/
theorem history_partial_tolerance_witness :
    buildHistory
      ([RawRecord.humanMsg "u1", RawRecord.aiMsg "a1"]
        ++ RawRecord.dict (some "weird") none (some "x") none
          :: [RawRecord.humanMsg "u2"])
      = Except.ok ([LCMessage.human "u1", LCMessage.ai "a1"]
          ++ [LCMessage.human "u2"])
    ∧ buildHistory
        ([RawRecord.humanMsg "u1", RawRecord.aiMsg "a1"]
          ++ RawRecord.dict (some "user") none (some "x") none
            :: [RawRecord.humanMsg "u2"])
        = Except.ok ([LCMessage.human "u1", LCMessage.ai "a1"]
            ++ LCMessage.human "x" :: [LCMessage.human "u2"])
    ∧ buildHistory
        ([RawRecord.humanMsg "u1", RawRecord.aiMsg "a1"]
          ++ RawRecord.dict (some "user") none none none
            :: [RawRecord.humanMsg "u2"])
        = Except.error () :=
  ⟨(history_partial_tolerance_amended
      [RawRecord.humanMsg "u1", RawRecord.aiMsg "a1"]
      [RawRecord.humanMsg "u2"]
      [LCMessage.human "u1", LCMessage.ai "a1"] [LCMessage.human "u2"]
      (by decide) (by decide)
      (some "weird") none (some "x") none).1
        (by decide) (by decide) (by decide),
   (history_partial_tolerance_amended
      [RawRecord.humanMsg "u1", RawRecord.aiMsg "a1"]
      [RawRecord.humanMsg "u2"]
      [LCMessage.human "u1", LCMessage.ai "a1"] [LCMessage.human "u2"]
      (by decide) (by decide)
      (some "user") none (some "x") none).2.1 "x" (by decide) (by decide),
   (history_partial_tolerance_amended
      [RawRecord.humanMsg "u1", RawRecord.aiMsg "a1"]
      [RawRecord.humanMsg "u2"]
      [LCMessage.human "u1", LCMessage.ai "a1"] [LCMessage.human "u2"]
      (by decide) (by decide)
      (some "user") none none none).2.2 (by decide) (by decide)⟩

/-- Claim C10. A dict record whose falsy-or resolved role (role field,
else type field) equals ai is converted exactly as a record with role
assistant and the same content fields, whatever those are; when its
content (content field, else text field) resolves to a string it becomes
an ai (assistant) message carrying exactly that content, and in a full
load it is kept in place, not dropped. -/
theorem ai_role_alias_maps_to_assistant (role typ content text : Option String)
    (h : pyOr role typ = some "ai") :
    recordToMsg (.dict role typ content text)
      = recordToMsg (.dict (some "assistant") typ content text)
    ∧ ∀ c, pyOr content text = some c →
        recordToMsg (.dict role typ content text)
          = Except.ok (some (.ai c))
        ∧ ∀ l1 l2 h1 h2, buildHistory l1 = Except.ok h1 →
            buildHistory l2 = Except.ok h2 →
            buildHistory (l1 ++ RawRecord.dict role typ content text :: l2)
              = Except.ok (h1 ++ LCMessage.ai c :: h2) := by
  have hassist : pyOr (some "assistant") typ = some "assistant" := by
    simp [pyOr]
  constructor
  · simp [recordToMsg, h, hassist]
  · intro c hc
    have hr : recordToMsg (.dict role typ content text)
        = Except.ok (some (.ai c)) := by
      simp [recordToMsg, h, hc]
    refine ⟨hr, ?_⟩
    intro l1 l2 h1 h2 hok1 hok2
    rw [buildHistory_append_ok l1 _ h1 hok1,
      buildHistory_cons_emit _ _ _ _ hr hok2]
    rfl

/-- Claim C10, witness: a record with role ai and content in the text
field converts exactly like the assistant role and is kept as an ai
message in a surrounding load. -/
theorem ai_role_alias_witness :
    recordToMsg (.dict (some "ai") none none (some "yo"))
      = recordToMsg (.dict (some "assistant") none none (some "yo"))
    ∧ ∀ c, pyOr none (some "yo") = some c →
        recordToMsg (.dict (some "ai") none none (some "yo"))
          = Except.ok (some (.ai c))
        ∧ ∀ l1 l2 h1 h2, buildHistory l1 = Except.ok h1 →
            buildHistory l2 = Except.ok h2 →
            buildHistory
              (l1 ++ RawRecord.dict (some "ai") none none (some "yo") :: l2)
              = Except.ok (h1 ++ LCMessage.ai c :: h2) :=
  ai_role_alias_maps_to_assistant (some "ai") none none (some "yo")
    (by decide)

/-- Claim C3. Turn numbering: whenever a chat message is processed to a
successful outcome, the turn number recorded in the persisted-turn write
equals half (rounded down) the length of the history returned by the
session load for that request, and for a brand-new session (falsy session
id, hence empty history) it is 0. -/
theorem turn_number_half_history (ctx : ExtCtx) (req : ChatRequest)
    (cache : UserCache) (sid : String) (turn mc : Nat)
    (h : (send_chat_message ctx (some req) cache).1
      = SendOutcome.ok sid turn mc) :
    turn = (load_session ctx req.session_id cache).1.history.length / 2
    ∧ Job.saveTurn sid (pyStrip (req.message.getD "")) ctx.llmReply turn
        ∈ (send_chat_message ctx (some req) cache).2.2
    ∧ (isFalsyId req.session_id = true → turn = 0) := by
  by_cases he : pyStrip (req.message.getD "") = ""
  · simp [send_chat_message, he] at h
  · by_cases hl : 1000 < (pyStrip (req.message.getD "")).length
    · simp [send_chat_message, he, hl] at h
    · rcases hS : (load_session ctx req.session_id cache).1.sessionId
        with _ | sid'
      · simp [send_chat_message, he, hl, hS] at h
      · rcases hC : (load_session ctx req.session_id cache).1.chain
          with _ | ch
        · simp [send_chat_message, he, hl, hS, hC] at h
        · simp [send_chat_message, he, hl, hS, hC] at h
          obtain ⟨h1, h2, h3⟩ := h
          subst h1
          subst h2
          refine ⟨rfl, ?_, ?_⟩
          · simp [send_chat_message, he, hl, hS, hC]
          · intro hf
            rw [load_session_falsy_history ctx req.session_id cache hf]
            rfl

/-- Claim C3, witness: a first message on a brand-new session is recorded
with turn number 0 = 0 / 2, and the save-turn job carries that number. -/
theorem turn_number_witness :
    (0 : Nat) = (load_session ⟨"s1", 5, 6, Except.ok 3, Except.ok [], "hello"⟩
        none []).1.history.length / 2
    ∧ Job.saveTurn "s1" (pyStrip "hi") "hello" 0
        ∈ (send_chat_message ⟨"s1", 5, 6, Except.ok 3, Except.ok [], "hello"⟩
            (some ⟨some "hi", none⟩) []).2.2
    ∧ (isFalsyId none = true → (0 : Nat) = 0) :=
  turn_number_half_history
    ⟨"s1", 5, 6, Except.ok 3, Except.ok [], "hello"⟩
    ⟨some "hi", none⟩ [] "s1" 0 1 (by decide)

/-- Claim C4. Resume semantics: on a resume (session id present and
nonfalsy) with the raw store read succeeding, the returned history is
always rebuilt record by record from the freshly loaded raw records, for
every cache content; when the id is cached the cached chain is reused and
the cache is untouched, and when it is not cached a freshly built chain is
inserted with message count half the rebuilt history length. -/
theorem resume_rebuilds_history_and_reuses_chain (ctx : ExtCtx)
    (sid : String) (cache : UserCache) (raw : List RawRecord)
    (hist : List LCMessage) (hsid : sid ≠ "")
    (hraw : ctx.rawHistory = Except.ok raw)
    (hb : buildHistory raw = Except.ok hist) :
    (∀ rec, lookupKey cache sid = some rec →
      load_session ctx (some sid) cache
        = (⟨some sid, some rec.chain, hist⟩, cache, []))
    ∧ (lookupKey cache sid = none →
        ∀ ch, ctx.chainResult = Except.ok ch →
        load_session ctx (some sid) cache
          = (⟨some sid, some ch, hist⟩,
             dictSet cache sid ⟨ch, ctx.now, hist.length / 2⟩,
             [])) := by
  constructor
  · intro rec hrec
    simp [load_session, isFalsyId, hsid, hraw, hb, hrec]
  · intro hmiss ch hch
    simp [load_session, isFalsyId, hsid, hraw, hb, hmiss, hch]

/-- Raw store content of the cold-resume scenario: three fully recorded
turns, six message halves. -/
def sixTurnRaw : List RawRecord :=
  [RawRecord.humanMsg "u1", RawRecord.aiMsg "a1",
   RawRecord.humanMsg "u2", RawRecord.aiMsg "a2",
   RawRecord.humanMsg "u3", RawRecord.aiMsg "a3"]

/-- Claim C4, witness on the cold-resume scenario of the spec: session s
is absent from the cache (here empty after a direct eviction), its three
recorded turns are reloaded as a history of length 6, a chain is rebuilt
and cached with message count 6 / 2 = 3. -/
theorem cold_resume_witness :
    load_session ⟨"f", 9, 10, Except.ok 4, Except.ok sixTurnRaw, "r"⟩
      (some "s") []
      = (⟨some "s", some 4,
          [LCMessage.human "u1", LCMessage.ai "a1", LCMessage.human "u2",
           LCMessage.ai "a2", LCMessage.human "u3", LCMessage.ai "a3"]⟩,
         [("s", ⟨4, 9, 3⟩)], [])
    ∧ ([LCMessage.human "u1", LCMessage.ai "a1", LCMessage.human "u2",
        LCMessage.ai "a2", LCMessage.human "u3",
        LCMessage.ai "a3"] : List LCMessage).length = 6 :=
  ⟨(resume_rebuilds_history_and_reuses_chain
      ⟨"f", 9, 10, Except.ok 4, Except.ok sixTurnRaw, "r"⟩
      "s" [] sixTurnRaw
      [LCMessage.human "u1", LCMessage.ai "a1", LCMessage.human "u2",
       LCMessage.ai "a2", LCMessage.human "u3", LCMessage.ai "a3"]
      (by decide) rfl (by decide)).2 rfl 4 rfl,
   by decide⟩

/-- Claim C6. Failure behaviour: when the raw store read raises on a
resume, or the chain build raises (on a resume of an uncached id, or on a
new session), the load returns the triple (none, none, empty history);
no session record is inserted (on the new-session path the cache keys
afterwards are a subset of the keys before, eviction being the only
mutation); an empty raw history is not an error: the load still returns a
chain; and the caller surfaces a missing chain as the session-error (500)
outcome. -/
theorem resolve_failure_returns_empty_triple (ctx : ExtCtx)
    (cache : UserCache) (sid : String) (hsid : sid ≠ "") :
    (ctx.rawHistory = Except.error () →
      load_session ctx (some sid) cache = (⟨none, none, []⟩, cache, []))
    ∧ (lookupKey cache sid = none → ctx.chainResult = Except.error () →
        ∀ raw, ctx.rawHistory = Except.ok raw →
        load_session ctx (some sid) cache = (⟨none, none, []⟩, cache, []))
    ∧ (ctx.chainResult = Except.error () →
        (load_session ctx none cache).1 = ⟨none, none, []⟩
        ∧ ((load_session ctx none cache).2.1.map Prod.fst)
            ⊆ cache.map Prod.fst)
    ∧ (ctx.rawHistory = Except.ok [] →
        (lookupKey cache sid ≠ none ∨ ctx.chainResult ≠ Except.error ()) →
        (load_session ctx (some sid) cache).1.chain ≠ none
        ∧ (load_session ctx (some sid) cache).1.history = [])
    ∧ (∀ req : ChatRequest, ∀ m, req.message = some m →
        pyStrip m ≠ "" → (pyStrip m).length ≤ 1000 →
        (load_session ctx req.session_id cache).1.chain = none →
        (send_chat_message ctx (some req) cache).1
          = SendOutcome.sessionError
              (load_session ctx req.session_id cache).1.sessionId) := by
  refine ⟨?_, ?_, ?_, ?_, ?_⟩
  · intro hr
    simp [load_session, isFalsyId, hsid, hr]
  · intro hmiss hch raw hraw
    rcases hb : buildHistory raw with u | hist
    · cases u
      simp [load_session, isFalsyId, hsid, hraw, hb]
    · simp [load_session, isFalsyId, hsid, hraw, hb, hmiss, hch]
  · intro hch
    refine ⟨by simp [load_session, isFalsyId, hch], ?_⟩
    have h21 : (load_session ctx none cache).2.1
        = (cleanup_old_sessions cache 2).1 := by
      simp [load_session, isFalsyId, hch]
    rw [h21]
    exact (List.Sublist.map Prod.fst (cleanup_sublist cache 2)).subset
  · intro hraw hok
    rcases hk : lookupKey cache sid with _ | rec
    · rcases hc : ctx.chainResult with u | ch
      · rcases hok with hok | hok
        · exact absurd hk hok
        · cases u
          exact absurd hc hok
      · simp [load_session, isFalsyId, hsid, hraw, hk, hc, buildHistory]
    · simp [load_session, isFalsyId, hsid, hraw, hk, buildHistory]
  · intro req m hm hne hlen hC
    have hl : ¬ 1000 < (pyStrip m).length := by omega
    rcases hS : (load_session ctx req.session_id cache).1.sessionId
      with _ | sid'
    · simp [send_chat_message, hm, hne, hl, hS, hC]
    · simp [send_chat_message, hm, hne, hl, hS, hC]

/-- Claim C6, witness: with both external calls failing and a nonempty
cache, resuming an uncached session id returns the failure triple and
leaves the cache exactly as it was. -/
theorem resolve_failure_witness :
    load_session ⟨"f", 1, 2, Except.error (), Except.error (), "r"⟩
      (some "s") [("a", ⟨5, 7, 1⟩)]
      = (⟨none, none, []⟩, [("a", ⟨5, 7, 1⟩)], []) :=
  (resolve_failure_returns_empty_triple
    ⟨"f", 1, 2, Except.error (), Except.error (), "r"⟩
    [("a", ⟨5, 7, 1⟩)] "s" (by decide)).1 rfl

/-- Claim C7. History cap: when the raw records handed to the session load
come from the store fetch bounded at 25 (modelled from the spec as the 25
most recent records), the history produced for a resumed session never
holds more than 25 messages, whatever the store contains. Reason:
spec-modelled store fetch, plus the fact that each raw record yields at
most one message. -/
theorem history_cap_25 (ctx : ExtCtx) (store : List RawRecord)
    (sid : String) (cache : UserCache) (hsid : sid ≠ "")
    (hraw : ctx.rawHistory = Except.ok (load_conversation_memory store 25)) :
    (load_session ctx (some sid) cache).1.history.length ≤ 25 := by
  have hload : (load_conversation_memory store 25).length ≤ 25 := by
    simp only [load_conversation_memory, List.length_drop]
    omega
  rcases hb : buildHistory (load_conversation_memory store 25) with u | hist
  · cases u
    simp [load_session, isFalsyId, hsid, hraw, hb]
  · have hlen : hist.length ≤ 25 :=
      le_trans (buildHistory_ok_length_le _ hist hb) hload
    rcases hk : lookupKey cache sid with _ | rec
    · rcases hc : ctx.chainResult with _ | ch
      · simp [load_session, isFalsyId, hsid, hraw, hb, hk, hc]
      · simp only [load_session, isFalsyId, hsid, hraw, hb, hk, hc]
        simpa using hlen
    · simp only [load_session, isFalsyId, hsid, hraw, hb, hk]
      simpa using hlen

/-- Claim C7, witness: a store of 30 records still yields a resumed
history of at most 25 messages. -/
theorem history_cap_witness :
    (load_session
      ⟨"f", 1, 2, Except.ok 3,
        Except.ok (load_conversation_memory
          (List.replicate 30 (RawRecord.humanMsg "x")) 25), "r"⟩
      (some "s") []).1.history.length ≤ 25 :=
  history_cap_25 _ (List.replicate 30 (RawRecord.humanMsg "x")) "s" []
    (by decide) rfl

/-- Claim C8. Message length limit: a request whose stripped message text
exceeds 1000 characters is rejected with the validation outcome before any
session work, leaving the cache unchanged and spawning no background job;
a request whose stripped text is at most 1000 characters never takes that
rejection. -/
theorem message_length_limit_1000 (ctx : ExtCtx) (req : ChatRequest)
    (cache : UserCache) (m : String) (hm : req.message = some m) :
    (1000 < (pyStrip m).length →
      send_chat_message ctx (some req) cache
        = (SendOutcome.messageTooLong, cache, []))
    ∧ ((pyStrip m).length ≤ 1000 →
      (send_chat_message ctx (some req) cache).1
        ≠ SendOutcome.messageTooLong) := by
  constructor
  · intro hlong
    have hne : pyStrip m ≠ "" := by
      intro h0
      rw [h0] at hlong
      simp at hlong
    simp [send_chat_message, hm, hne, hlong]
  · intro hshort
    by_cases he : pyStrip m = ""
    · simp [send_chat_message, hm, he]
    · have hl : ¬ 1000 < (pyStrip m).length := by omega
      rcases hS : (load_session ctx req.session_id cache).1.sessionId
        with _ | sid'
      · simp [send_chat_message, hm, he, hl, hS]
      · rcases hC : (load_session ctx req.session_id cache).1.chain
          with _ | ch
        · simp [send_chat_message, hm, he, hl, hS, hC]
        · simp [send_chat_message, hm, he, hl, hS, hC]

set_option maxRecDepth 200000

/-- Claim C8, witness: a 1001-character message is rejected as too long
with no cache change and no job, while a 2-character message is not. -/
theorem message_length_witness :
    send_chat_message ⟨"f", 1, 2, Except.ok 3, Except.ok [], "r"⟩
      (some ⟨some (String.mk (List.replicate 1001 'a')), none⟩) []
      = (SendOutcome.messageTooLong, [], [])
    ∧ (send_chat_message ⟨"f", 1, 2, Except.ok 3, Except.ok [], "r"⟩
        (some ⟨some "hi", none⟩) []).1 ≠ SendOutcome.messageTooLong :=
  ⟨(message_length_limit_1000 _ _ [] _ rfl).1 (by decide),
   (message_length_limit_1000 _ _ [] _ rfl).2 (by decide)⟩

/-- Claim C9. Whitespace-only rejection: a request whose message field is
missing (so defaulted to the empty string), empty, or stripped to the
empty string is rejected with the empty-message validation outcome before
any session work: the cache is returned unchanged and no background job is
spawned, hence no session id is generated and nothing is persisted. -/
theorem blank_message_rejected (ctx : ExtCtx) (req : ChatRequest)
    (cache : UserCache) (h : pyStrip (req.message.getD "") = "") :
    send_chat_message ctx (some req) cache
      = (SendOutcome.emptyMessage, cache, []) := by
  simp [send_chat_message, h]

/-- Claim C9, witness: a whitespace-only message on a nonempty cache, and
a missing message field, are both rejected leaving the cache unchanged
with no jobs. -/
theorem blank_message_witness :
    send_chat_message ⟨"f", 1, 2, Except.ok 3, Except.ok [], "r"⟩
      (some ⟨some "  \t ", some "x"⟩) [("x", ⟨3, 1, 4⟩)]
      = (SendOutcome.emptyMessage, [("x", ⟨3, 1, 4⟩)], [])
    ∧ send_chat_message ⟨"f", 1, 2, Except.ok 3, Except.ok [], "r"⟩
        (some ⟨none, none⟩) [] = (SendOutcome.emptyMessage, [], []) :=
  ⟨blank_message_rejected _ _ _ (by decide),
   blank_message_rejected _ _ _ (by decide)⟩

end StressEase
